import Mathlib

/-!
Verification of the conversation/session core of the shell-ai command line
client (src/ai.mjs).  The JavaScript source is shallowly embedded below:
pure functions become Lean functions, the on-disk history directory becomes
an explicit association list of file names to contents, and the remote
completion service and the JSON codec of the runtime become explicit
functional parameters.  Code paths that throw in JavaScript are modelled
with `Except.error`.
-/

namespace ShellAi

/-- Usage counters of a response record (`response.usage`). -/
structure Usage where
  input_tokens : Nat
  output_tokens : Nat
deriving DecidableEq

/-- Failure payload of a response record (`response.error`). -/
structure ErrInfo where
  message : String
deriving DecidableEq

/-- One content part inside an output item (`out.content[i]` in src/ai.mjs). -/
structure ContentPart where
  type : String
  text : String
deriving DecidableEq

/-- One output item of a response (`response.output[i]`). -/
structure OutItem where
  type : String
  content : List ContentPart
deriving DecidableEq

/-- Response Record as returned by the remote service and persisted in the
history store (the fields of src/ai.mjs that the program reads). -/
structure Resp where
  id : String
  status : String
  created_at : Nat
  previous_response_id : Option String
  model : String
  usage : Usage
  error : Option ErrInfo
  output : List OutItem
  output_text : String
deriving DecidableEq

/-- One input content part produced by `parseInputRows` (src/ai.mjs:596-679). -/
inductive InputRow where
  | inputText (text : String)
  | inputImage (image_url : String) (detail : String)
  | inputFileUrl (file_url : String)
  | inputFileData (filename : String) (file_data : String)
deriving DecidableEq

/-- The `type` tag of an input row, as serialized in the request payload. -/
def InputRow.type : InputRow → String
  | .inputText _ => "input_text"
  | .inputImage _ _ => "input_image"
  | .inputFileUrl _ => "input_file"
  | .inputFileData _ _ => "input_file"

/-- The `text` field of an input row (empty for the non-text kinds, which the
source never reads). -/
def InputRow.textOf : InputRow → String
  | .inputText t => t
  | _ => ""

/-- One entry of `request.input` (src/ai.mjs:139-147): a message wrapping the
input content rows. -/
structure ReqMsg where
  type : String
  content : List InputRow
deriving DecidableEq

/-- Request Record as persisted by `saveRequest` and read back by
`loadRequest` (the fields `listHistory` reads). -/
structure Request where
  model : String
  previous_response_id : Option String
  input : Option (List ReqMsg)
  instructions : String
deriving DecidableEq

/-- The on-disk working directory `/tmp/ai-cli`, as an association of file
names to file contents. -/
structure Store where
  files : List (String × String)
deriving DecidableEq

/-- Models `load` (src/ai.mjs:545-547): `fs.readFile` of the named file in
the working directory with every filesystem error caught to `null`. -/
def load (st : Store) (name : String) : Option String :=
  st.files.lookup name

/-- Models JavaScript `String.prototype.endsWith`. -/
def jsEndsWith (s suf : String) : Bool :=
  suf.data.isSuffixOf s.data

/-- Models JavaScript `String.prototype.startsWith`. -/
def jsStartsWith (s pre : String) : Bool :=
  pre.data.isPrefixOf s.data

/-- Characters of the last path component, accumulating and restarting at
each slash (helper for `path.basename`). -/
def basenameChars : List Char → List Char → List Char
  | [], acc => acc.reverse
  | c :: rest, acc =>
    if c = '/' then basenameChars rest [] else basenameChars rest (c :: acc)

/-- Models Node's `path.basename` (no extension argument). -/
def basenameOf (p : String) : String :=
  String.mk (basenameChars p.data [])

/-- Models `listAllResponseIds` (src/ai.mjs:698-706): the directory entries
that start with `resp_` and end with `.json`, with the `.json` suffix
stripped (`path.basename(f, '.json')`). -/
def listAllResponseIds (st : Store) : List String :=
  ((st.files.map Prod.fst).filter
    (fun f => jsStartsWith f "resp_" && jsEndsWith f ".json")).map
    (fun f =>
      let cs := (basenameOf f).data
      String.mk (cs.take (cs.length - 5)))

/-- Models `idFromFile` (src/ai.mjs:681-696).  The JavaScript `throw` on an
ambiguous short id becomes `Except.error`; no match is `null`. -/
def idFromFile (shortId : String) (ids : List String) :
    Except String (Option String) :=
  if (ids.filter (fun i => jsEndsWith i shortId)).length > 1 then
    .error ("Ambiguous short ID: " ++ shortId)
  else
    match ids.filter (fun i => jsEndsWith i shortId) with
    | [i] => .ok (some i)
    | _ => .ok none

/-- Short-id resolution step of `loadResponse` (src/ai.mjs:576-583): a
candidate shorter than 12 characters is expanded by suffix search over the
stored response ids, otherwise it is used verbatim. -/
def resolveId (st : Store) (id : String) : Except String (Option String) :=
  if id.length < 12 then
    idFromFile id (listAllResponseIds st)
  else
    .ok (some id)

/-- Models `loadResponse` (src/ai.mjs:575-590).  The parameter `parse`
stands for the runtime's `JSON.parse` on the record file; `parse` returning
`none` on non-empty content is the uncaught `SyntaxError` throw, and empty
or missing content is the falsiness check `if (!response) return null`. -/
def loadResponse (st : Store) (parse : String → Option Resp) (id : String) :
    Except String (Option Resp) :=
  match resolveId st id with
  | .error e => .error e
  | .ok none => .ok none
  | .ok (some fullId) =>
    match load st (fullId ++ ".json") with
    | none => .ok none
    | some c =>
      if c = "" then .ok none
      else
        match parse c with
        | some r => .ok (some r)
        | none => .error "SyntaxError: Unexpected token in JSON"

/-- A list containing two distinct elements that satisfy a predicate has at
least two elements after filtering by it. -/
theorem two_le_filter_length {α : Type} (p : α → Bool) (l : List α) (a b : α)
    (ha : a ∈ l) (hb : b ∈ l) (hab : a ≠ b)
    (hpa : p a = true) (hpb : p b = true) :
    2 ≤ (l.filter p).length := by
  have ha' : a ∈ l.filter p := List.mem_filter.2 ⟨ha, hpa⟩
  have hb' : b ∈ l.filter p := List.mem_filter.2 ⟨hb, hpb⟩
  rcases hf : l.filter p with _ | ⟨x, _ | ⟨y, rest⟩⟩
  · rw [hf] at ha'
    exact absurd ha' (List.not_mem_nil a)
  · rw [hf] at ha' hb'
    have hax : a = x := by simpa using ha'
    have hbx : b = x := by simpa using hb'
    exact absurd (hax.trans hbx.symm) hab
  · simp only [List.length_cons]
    omega

/-- In a duplicate-free list, filtering by a predicate that holds at `a` and
at no other member yields exactly `[a]`. -/
theorem filter_eq_singleton {α : Type} [DecidableEq α] (p : α → Bool)
    (l : List α) (a : α) (hnd : l.Nodup) (ha : a ∈ l) (hpa : p a = true)
    (huniq : ∀ b ∈ l, p b = true → b = a) :
    l.filter p = [a] := by
  have haf : a ∈ l.filter p := List.mem_filter.2 ⟨ha, hpa⟩
  have hnf : (l.filter p).Nodup := hnd.filter p
  have hall : ∀ x ∈ l.filter p, x = a := by
    intro x hx
    have hx' := List.mem_filter.1 hx
    exact huniq x hx'.1 hx'.2
  rcases hf : l.filter p with _ | ⟨x, _ | ⟨y, rest⟩⟩
  · rw [hf] at haf
    exact absurd haf (List.not_mem_nil a)
  · rw [hf] at hall
    have hxa : x = a := hall x (by simp)
    rw [hxa]
  · rw [hf] at hall hnf
    have hx : x = a := hall x (by simp)
    have hy : y = a := hall y (by simp)
    rw [hx, hy] at hnf
    simp at hnf

/-- C4: when two distinct stored identifiers both have the candidate as a
suffix, the short-id resolver signals the ambiguous-identifier error and
never returns any match. -/
theorem c4_ambiguous_short_id (s : String) (ids : List String)
    (i1 i2 : String) (h1 : i1 ∈ ids) (h2 : i2 ∈ ids) (hne : i1 ≠ i2)
    (e1 : jsEndsWith i1 s = true) (e2 : jsEndsWith i2 s = true) :
    idFromFile s ids = .error ("Ambiguous short ID: " ++ s)
      ∧ ∀ i : String, idFromFile s ids ≠ .ok (some i) := by
  have hlen : 2 ≤ (ids.filter (fun i => jsEndsWith i s)).length :=
    two_le_filter_length _ ids i1 i2 h1 h2 hne e1 e2
  have hgt : (ids.filter (fun i => jsEndsWith i s)).length > 1 := hlen
  have hmain : idFromFile s ids = .error ("Ambiguous short ID: " ++ s) := by
    unfold idFromFile
    rw [if_pos hgt]
  refine ⟨hmain, ?_⟩
  intro i hcontra
  rw [hmain] at hcontra
  exact Except.noConfusion hcontra

/-- Witness for C4 on a concrete store: both `resp_xa` and `resp_ya` end in
the candidate `a`, and the resolver reports ambiguity. -/
theorem c4_ambiguous_short_id_witness :
    idFromFile "a" ["resp_xa", "resp_ya"] = .error ("Ambiguous short ID: " ++ "a")
      ∧ ∀ i : String, idFromFile "a" ["resp_xa", "resp_ya"] ≠ .ok (some i) :=
  c4_ambiguous_short_id "a" ["resp_xa", "resp_ya"] "resp_xa" "resp_ya"
    (by decide) (by decide) (by decide) (by decide) (by decide)

/-- C5: a candidate shorter than the 12-character threshold that is a suffix
of exactly one stored identifier resolves to that identifier, and any
candidate of length at least 12 is treated as already complete and used
verbatim. -/
theorem c5_unique_suffix_resolves (st : Store) (S I : String)
    (hlen : S.length < 12)
    (hnd : (listAllResponseIds st).Nodup)
    (hmem : I ∈ listAllResponseIds st)
    (hsuf : jsEndsWith I S = true)
    (huniq : ∀ J ∈ listAllResponseIds st, jsEndsWith J S = true → J = I) :
    resolveId st S = .ok (some I)
      ∧ ∀ T : String, 12 ≤ T.length → resolveId st T = .ok (some T) := by
  constructor
  · have hf : (listAllResponseIds st).filter (fun i => jsEndsWith i S) = [I] :=
      filter_eq_singleton _ _ I hnd hmem hsuf huniq
    unfold resolveId
    rw [if_pos hlen]
    unfold idFromFile
    rw [hf]
    simp
  · intro T hT
    unfold resolveId
    rw [if_neg (by omega)]

/-- Concrete store for the C5 witness: a single persisted response file. -/
def sampleStore5 : Store :=
  ⟨[("resp_abcdef.json", "x")]⟩

/-- Witness for C5: in a store holding only `resp_abcdef`, the suffix `def`
resolves to it, and 12-character-or-longer candidates pass through. -/
theorem c5_unique_suffix_resolves_witness :
    resolveId sampleStore5 "def" = .ok (some "resp_abcdef")
      ∧ ∀ T : String, 12 ≤ T.length → resolveId sampleStore5 T = .ok (some T) :=
  c5_unique_suffix_resolves sampleStore5 "def" "resp_abcdef"
    (by decide) (by decide) (by decide) (by decide) (by decide)

/-- Models `loadRequest` (src/ai.mjs:566-573); `parseReq` stands for
`JSON.parse` on the request file, whose failure is likewise uncaught. -/
def loadRequest (st : Store) (parseReq : String → Option Request)
    (id : String) : Except String (Option Request) :=
  match load st ("req_" ++ id ++ ".json") with
  | none => .ok none
  | some c =>
    if c = "" then .ok none
    else
      match parseReq c with
      | some r => .ok (some r)
      | none => .error "SyntaxError: Unexpected token in JSON"

/-- Left brace character, written via its character code. -/
def lbrace : Char := '\x7b'

/-- Right brace character, written via its character code. -/
def rbrace : Char := '\x7d'

/-- JSON whitespace characters. -/
def wsChar (c : Char) : Bool :=
  c = ' ' || c = '\t' || c = '\n' || c = '\r'

/-- Drop leading JSON whitespace. -/
def skipWs (cs : List Char) : List Char :=
  cs.dropWhile wsChar

/-- Decimal digit test. -/
def digitChar (c : Char) : Bool :=
  '0' ≤ c && c ≤ '9'

/-- Consume one or more decimal digits. -/
def jsonDigits (cs : List Char) : Option (List Char) :=
  let ds := cs.takeWhile digitChar
  if ds.isEmpty then none else some (cs.drop ds.length)

/-- Drop one leading sign character if present. -/
def dropSign : List Char → List Char
  | [] => []
  | c :: r => if c = '+' || c = '-' then r else c :: r

/-- Consume an optional fraction part of a JSON number. -/
def jsonFrac (cs : List Char) : Option (List Char) :=
  match cs with
  | '.' :: r => jsonDigits r
  | _ => some cs

/-- Consume an optional exponent part of a JSON number. -/
def jsonExpPart (cs : List Char) : Option (List Char) :=
  match cs with
  | c :: r => if c = 'e' || c = 'E' then jsonDigits (dropSign r) else some (c :: r)
  | [] => some []

/-- Consume a JSON number. -/
def jsonNumber (cs : List Char) : Option (List Char) :=
  let cs1 := match cs with
    | '-' :: r => r
    | _ => cs
  match jsonDigits cs1 with
  | none => none
  | some cs2 =>
    match jsonFrac cs2 with
    | none => none
    | some cs3 => jsonExpPart cs3

/-- Consume the remainder of a JSON string after its opening quote. -/
def jsonStringRest : Nat → List Char → Option (List Char)
  | 0, _ => none
  | _, [] => none
  | fuel+1, c :: rest =>
    if c = '"' then some rest
    else if c = '\\' then
      match rest with
      | [] => none
      | _ :: rest2 => jsonStringRest fuel rest2
    else jsonStringRest fuel rest

/-- Consume literal text if it is a prefix of the input. -/
def expectChars (pat : List Char) (cs : List Char) : Option (List Char) :=
  if pat.isPrefixOf cs then some (cs.drop pat.length) else none

mutual

/-- Modelled from the spec: the grammar accepted by the runtime's
`JSON.parse` (a library external to the repository), as a fuel-bounded
recognizer returning the unconsumed remainder on success. -/
def jsonValue : Nat → List Char → Option (List Char)
  | 0, _ => none
  | fuel+1, cs0 =>
    let cs := skipWs cs0
    match expectChars "null".data cs with
    | some r => some r
    | none =>
      match expectChars "true".data cs with
      | some r => some r
      | none =>
        match expectChars "false".data cs with
        | some r => some r
        | none =>
          match cs with
          | [] => none
          | c :: r =>
            if c = '"' then jsonStringRest fuel r
            else if c = lbrace then jsonObjectBody fuel r
            else if c = '[' then jsonArrayBody fuel r
            else jsonNumber (c :: r)

/-- Remainder of a JSON object after the opening brace. -/
def jsonObjectBody : Nat → List Char → Option (List Char)
  | 0, _ => none
  | fuel+1, cs =>
    match skipWs cs with
    | [] => none
    | c :: r => if c = rbrace then some r else jsonMembers fuel (c :: r)

/-- One or more key-value members followed by the closing brace. -/
def jsonMembers : Nat → List Char → Option (List Char)
  | 0, _ => none
  | fuel+1, cs =>
    match skipWs cs with
    | [] => none
    | c :: r =>
      if c = '"' then
        match jsonStringRest fuel r with
        | none => none
        | some r2 =>
          match skipWs r2 with
          | ':' :: r3 =>
            match jsonValue fuel r3 with
            | none => none
            | some r4 =>
              match skipWs r4 with
              | [] => none
              | c2 :: r5 =>
                if c2 = ',' then jsonMembers fuel r5
                else if c2 = rbrace then some r5
                else none
          | _ => none
      else none

/-- Remainder of a JSON array after the opening bracket. -/
def jsonArrayBody : Nat → List Char → Option (List Char)
  | 0, _ => none
  | fuel+1, cs =>
    match skipWs cs with
    | [] => none
    | c :: r => if c = ']' then some r else jsonElems fuel (c :: r)

/-- One or more array elements followed by the closing bracket. -/
def jsonElems : Nat → List Char → Option (List Char)
  | 0, _ => none
  | fuel+1, cs =>
    match jsonValue fuel cs with
    | none => none
    | some r =>
      match skipWs r with
      | [] => none
      | c :: r2 =>
        if c = ',' then jsonElems fuel r2
        else if c = ']' then some r2
        else none

end

/-- Whether the whole string is one valid JSON document. -/
def jsonValid (s : String) : Bool :=
  match jsonValue (s.length + 1) s.data with
  | some rest => (skipWs rest).isEmpty
  | none => false

/-- Fixed record returned by the parse model on syntactically valid input. -/
def fallbackResp : Resp :=
  { id := "resp_parsed", status := "completed", created_at := 0,
    previous_response_id := none, model := "gpt-5.1",
    usage := { input_tokens := 0, output_tokens := 0 },
    error := none, output := [], output_text := "" }

/-- Modelled from the spec: the runtime's `JSON.parse` (a library external
to the repository).  Only its success or failure on a given string is
observable in the claims below — no theorem inspects the record it decodes
— so syntactically valid input maps to a fixed record and invalid input to
`none`, which stands for the `SyntaxError` throw. -/
def jsonParseModel (s : String) : Option Resp :=
  if jsonValid s then some fallbackResp else none

/-- C2 amended: a missing record file yields `null`, so the caller falls
back to the remote fetch, but a record file with non-empty non-parseable
content makes `loadResponse` propagate the uncaught `JSON.parse` exception
instead of returning `null`. -/
theorem c2_amended_load (st : Store) (parse : String → Option Resp)
    (id fullId : String) (hres : resolveId st id = .ok (some fullId)) :
    (load st (fullId ++ ".json") = none → loadResponse st parse id = .ok none)
      ∧ ∀ c, load st (fullId ++ ".json") = some c → c ≠ "" → parse c = none →
          loadResponse st parse id
            = .error "SyntaxError: Unexpected token in JSON" := by
  constructor
  · intro h
    simp only [loadResponse, hres, h]
  · intro c hc hne hp
    simp only [loadResponse, hres, hc, hp, if_neg hne]

/-- Store holding one response file whose content is a lone left brace:
the file is present but its content is not parseable JSON. -/
def corruptStore : Store :=
  ⟨[("resp_0123456789a.json", "\x7b")]⟩

/-- C2 counterexample: for identifier `resp_0123456789a`, whose record file
exists with unparseable content, `loadResponse` does not return `null` (the
claimed not-found fallback): it throws the uncaught `JSON.parse` error. -/
theorem c2_counterexample :
    loadResponse corruptStore jsonParseModel "resp_0123456789a"
        = .error "SyntaxError: Unexpected token in JSON"
      ∧ loadResponse corruptStore jsonParseModel "resp_0123456789a"
        ≠ .ok none := by
  have h : loadResponse corruptStore jsonParseModel "resp_0123456789a"
      = .error "SyntaxError: Unexpected token in JSON" := by rfl
  refine ⟨h, ?_⟩
  rw [h]
  intro hcontra
  exact Except.noConfusion hcontra

/-- Witness for the C2 amended theorem at a concrete store: a store holding
only the corrupt file, probed at an absent identifier and at the corrupt
one. -/
theorem c2_amended_load_witness :
    (load corruptStore ("resp_9999999999x" ++ ".json") = none →
        loadResponse corruptStore jsonParseModel "resp_9999999999x" = .ok none)
      ∧ ∀ c, load corruptStore ("resp_9999999999x" ++ ".json") = some c →
          c ≠ "" → jsonParseModel c = none →
          loadResponse corruptStore jsonParseModel "resp_9999999999x"
            = .error "SyntaxError: Unexpected token in JSON" :=
  c2_amended_load corruptStore jsonParseModel "resp_9999999999x"
    "resp_9999999999x" (by rfl)

/-- Response record with the stored identifier, used for the C1 local-hit
conjunct. -/
def storedResp : Resp :=
  { fallbackResp with id := "resp_0123456789a" }

/-- Parse function decoding the concrete stored content to `storedResp`. -/
def storedParse (s : String) : Option Resp :=
  if s = "STORED" then some storedResp else none

/-- Store holding the record file for `resp_0123456789a`. -/
def storedStore : Store :=
  ⟨[("resp_0123456789a.json", "STORED")]⟩

/-- Sample record returned by the remote service stand-in. -/
def remoteResp : Resp :=
  { fallbackResp with id := "resp_remote00001" }

/-- Models the retrieve-by-id branch (src/ai.mjs:109-116).  When the local
record is absent, line 114 evaluates `waitForCompletion(response)`, and
`response` there names the module-level `let` binding introduced only at
line 227: the access falls in its temporal dead zone, so the branch throws
a `ReferenceError` instead of polling the record just fetched into
`previousResponse`. -/
def retrieveById (st : Store) (parse : String → Option Resp)
    (remoteRetrieve : String → Resp) (id : String) : Except String Resp :=
  match loadResponse st parse id with
  | .error e => .error e
  | .ok (some r) => .ok r
  | .ok none =>
    let _previousResponse := remoteRetrieve id
    .error "ReferenceError: Cannot access response before initialization"

/-- C1: the retrieve branch does consult the history store first — with the
record locally present it is returned as is — but on a local miss the
process crashes with a `ReferenceError` (src/ai.mjs:114 passes the
uninitialized top-level `response` to `waitForCompletion`) instead of
polling the freshly fetched record to a terminal state and rendering it. -/
theorem c1_retrieve_fallback_crashes :
    retrieveById ⟨[]⟩ jsonParseModel (fun _ => remoteResp) "resp_0123456789a"
        = .error "ReferenceError: Cannot access response before initialization"
      ∧ retrieveById storedStore storedParse (fun _ => remoteResp)
          "resp_0123456789a" = .ok storedResp :=
  ⟨rfl, rfl⟩

/-- Input token rate per million (src/ai.mjs:8), as an exact rational. -/
def inputTokenCostPer1M : ℚ := 1.25

/-- Output token rate per million (src/ai.mjs:9), as an exact rational. -/
def outputTokenCostPer1M : ℚ := 10.0

/-- Cost computation of `waitForCompletion` (src/ai.mjs:268-272).  The
JavaScript numbers are modelled by rationals; at the token counts used in
the claims every operand and intermediate is exactly representable in
binary64, so the two arithmetics agree there. -/
def totalCost (inputTokens outputTokens : Nat) : ℚ :=
  (inputTokens : ℚ) / 1000000 * inputTokenCostPer1M
    + (outputTokens : ℚ) / 1000000 * outputTokenCostPer1M

/-- Observable effects of the submit/poll/terminal protocol. -/
inductive Event where
  | saveLastId (id : String)
  | saveRequest (id : String)
  | pollWait
  | retrieveCall (id : String)
  | reportError (msg : String)
  | reportCost (cost : ℚ)
  | saveResponse (r : Resp)
deriving DecidableEq

/-- Loop condition of the poll loop (src/ai.mjs:244). -/
def transientStatus (s : String) : Bool :=
  s == "queued" || s == "in_progress"

/-- Final outcome of `waitForCompletion`. -/
inductive SessionOutcome where
  | completed (r : Resp)
  | exited (code : Nat)
  | diverged
deriving DecidableEq

/-- Models the polling loop of `waitForCompletion` (src/ai.mjs:243-255).
The loop sleeps 500 ms per iteration and re-fetches the record on every
fourth iteration; since `dt` starts at 0, each round is exactly four waits
followed by one retrieve, which is how it is modelled.  `future` lists the
successive results of `openai.responses.retrieve`; an exhausted `future`
while the status is still transient stands for a loop that never observes
a terminal state (`none`). -/
def waitLoop : Resp → List Resp → List Event × Option Resp
  | r, [] =>
    if transientStatus r.status then
      ([.pollWait, .pollWait, .pollWait, .pollWait], none)
    else ([], some r)
  | r, r2 :: rest =>
    if transientStatus r.status then
      ([.pollWait, .pollWait, .pollWait, .pollWait, .retrieveCall r.id]
          ++ (waitLoop r2 rest).1, (waitLoop r2 rest).2)
    else ([], some r)

/-- Models `waitForCompletion` (src/ai.mjs:237-278): poll to a terminal
state; if the terminal record carries an error payload, report its message
and exit non-zero — before any persistence — otherwise report the cost and
persist the full record. -/
def waitForCompletion (r0 : Resp) (future : List Resp) :
    List Event × SessionOutcome :=
  let w := waitLoop r0 future
  match w.2 with
  | none => (w.1, .diverged)
  | some r =>
    match r.error with
    | some e => (w.1 ++ [.reportError e.message], .exited 1)
    | none =>
      (w.1 ++ [.reportCost (totalCost r.usage.input_tokens r.usage.output_tokens),
          .saveResponse r], .completed r)

/-- Models the top-level submission sequence (src/ai.mjs:227-234): after
`openai.responses.create` returns the created record, the last-response
pointer is saved and the request record is persisted under the new
identifier, and only then does the poll loop run. -/
def submitFlow (created : Resp) (future : List Resp) :
    List Event × SessionOutcome :=
  let w := waitForCompletion created future
  (.saveLastId created.id :: .saveRequest created.id :: w.1, w.2)

/-- The polling loop emits only waits and retrieve calls. -/
theorem waitLoop_events (future : List Resp) :
    ∀ (r : Resp), ∀ e ∈ (waitLoop r future).1,
      e = Event.pollWait ∨ ∃ i, e = Event.retrieveCall i := by
  induction future with
  | nil =>
    intro r e he
    cases htr : transientStatus r.status with
    | false => simp [waitLoop, htr] at he
    | true =>
      simp [waitLoop, htr] at he
      exact Or.inl he
  | cons r2 rest ih =>
    intro r e he
    cases htr : transientStatus r.status with
    | false => simp [waitLoop, htr] at he
    | true =>
      simp [waitLoop, htr] at he
      rcases he with h1 | h1 | h1
      · exact Or.inl h1
      · exact Or.inr ⟨r.id, h1⟩
      · exact ih r2 e h1

/-- C3 amended: on the first terminal observation, a record without an
error payload is persisted in full and the session completes; a failed
terminal record is not persisted — its failure message is reported and the
process exits with code 1, producing no output. -/
theorem c3_amended_terminal (r0 : Resp) (future : List Resp) (r : Resp)
    (hterm : (waitLoop r0 future).2 = some r) :
    (∀ e, r.error = some e →
      (waitForCompletion r0 future).2 = .exited 1
        ∧ Event.reportError e.message ∈ (waitForCompletion r0 future).1
        ∧ ∀ r', Event.saveResponse r' ∉ (waitForCompletion r0 future).1)
      ∧ (r.error = none →
        (waitForCompletion r0 future).2 = .completed r
          ∧ Event.saveResponse r ∈ (waitForCompletion r0 future).1) := by
  constructor
  · intro e he
    have hw : waitForCompletion r0 future
        = ((waitLoop r0 future).1 ++ [.reportError e.message], .exited 1) := by
      simp only [waitForCompletion, hterm, he]
    refine ⟨by rw [hw], by rw [hw]; simp, ?_⟩
    intro r' hmem
    rw [hw] at hmem
    simp only [List.mem_append, List.mem_cons, List.not_mem_nil, or_false] at hmem
    rcases hmem with hm | hm
    · rcases waitLoop_events future r0 _ hm with h1 | ⟨i, h1⟩ <;>
        exact Event.noConfusion h1
    · exact Event.noConfusion hm
  · intro he
    have hw : waitForCompletion r0 future
        = ((waitLoop r0 future).1
            ++ [.reportCost (totalCost r.usage.input_tokens r.usage.output_tokens),
               .saveResponse r], .completed r) := by
      simp only [waitForCompletion, hterm, he]
    exact ⟨by rw [hw], by rw [hw]; simp⟩

/-- Failed terminal record used in the C3 counterexample. -/
def failedResp : Resp :=
  { fallbackResp with
      id := "resp_failed00001"
      status := "failed"
      error := some { message := "boom" } }

/-- C3 counterexample: observing a terminal failed record, the session
reports the failure message and exits non-zero, but no `saveResponse`
effect occurs — the failed record is not persisted to the history store,
refuting the claimed persistence on `Failed`. -/
theorem c3_counterexample :
    (waitForCompletion failedResp []).2 = .exited 1
      ∧ Event.reportError "boom" ∈ (waitForCompletion failedResp []).1
      ∧ ∀ r', Event.saveResponse r' ∉ (waitForCompletion failedResp []).1 := by
  have htr : (waitForCompletion failedResp []).1 = [Event.reportError "boom"] := rfl
  refine ⟨rfl, ?_, ?_⟩
  · rw [htr]
    simp
  · intro r' hmem
    rw [htr] at hmem
    simp at hmem

/-- Witness for the C3 amended theorem at the concrete failed record. -/
theorem c3_amended_terminal_witness :
    (∀ e, failedResp.error = some e →
      (waitForCompletion failedResp []).2 = .exited 1
        ∧ Event.reportError e.message ∈ (waitForCompletion failedResp []).1
        ∧ ∀ r', Event.saveResponse r' ∉ (waitForCompletion failedResp []).1)
      ∧ (failedResp.error = none →
        (waitForCompletion failedResp []).2 = .completed failedResp
          ∧ Event.saveResponse failedResp ∈ (waitForCompletion failedResp []).1) :=
  c3_amended_terminal failedResp [] failedResp rfl

/-- C7: in the submission flow, every polling wait is preceded by the
last-response-pointer update and by the persistence of the request record
under the created identifier: both effects lie in the trace strictly
before any `pollWait`. -/
theorem c7_persist_before_poll (created : Resp) (future : List Resp) (i : Nat)
    (h : (submitFlow created future).1[i]? = some Event.pollWait) :
    Event.saveLastId created.id ∈ (submitFlow created future).1.take i
      ∧ Event.saveRequest created.id ∈ (submitFlow created future).1.take i := by
  match i with
  | 0 => simp [submitFlow] at h
  | 1 => simp [submitFlow] at h
  | Nat.succ (Nat.succ n) =>
    constructor <;> simp [submitFlow, List.take_succ_cons]

/-- Created record used in the C7 witness: transient when created. -/
def sampleQueued : Resp :=
  { fallbackResp with id := "resp_created0001", status := "queued" }

/-- Witness for C7: in the concrete submission trace the event at index 2
is a polling wait, and both persistence events precede it. -/
theorem c7_persist_before_poll_witness :
    ((submitFlow sampleQueued []).1[2]? = some Event.pollWait)
      ∧ (Event.saveLastId sampleQueued.id ∈ (submitFlow sampleQueued []).1.take 2
        ∧ Event.saveRequest sampleQueued.id ∈ (submitFlow sampleQueued []).1.take 2) :=
  ⟨rfl, c7_persist_before_poll sampleQueued [] 2 rfl⟩

/-- C8: for every terminal record observed without an error payload, the
reported cost equals `input_tokens/1e6` times the input rate plus
`output_tokens/1e6` times the output rate, and at one million tokens each
with the fixed rates 1.25 and 10.0 per million the cost is exactly
11.25. -/
theorem c8_cost_formula (r0 : Resp) (future : List Resp) (r : Resp)
    (hterm : (waitLoop r0 future).2 = some r) (he : r.error = none) :
    Event.reportCost ((r.usage.input_tokens : ℚ) / 1000000 * inputTokenCostPer1M
        + (r.usage.output_tokens : ℚ) / 1000000 * outputTokenCostPer1M)
        ∈ (waitForCompletion r0 future).1
      ∧ totalCost 1000000 1000000 = 11.25 := by
  constructor
  · have hw : waitForCompletion r0 future
        = ((waitLoop r0 future).1
            ++ [.reportCost (totalCost r.usage.input_tokens r.usage.output_tokens),
               .saveResponse r], .completed r) := by
      simp only [waitForCompletion, hterm, he]
    rw [hw]
    simp [totalCost]
  · norm_num [totalCost, inputTokenCostPer1M, outputTokenCostPer1M]

/-- Terminal record with one million input and output tokens each. -/
def costResp : Resp :=
  { fallbackResp with
      id := "resp_cost0000001"
      status := "completed"
      usage := { input_tokens := 1000000, output_tokens := 1000000 } }

/-- Witness for C8 at the concrete terminal record. -/
theorem c8_cost_formula_witness :
    Event.reportCost ((costResp.usage.input_tokens : ℚ) / 1000000 * inputTokenCostPer1M
        + (costResp.usage.output_tokens : ℚ) / 1000000 * outputTokenCostPer1M)
        ∈ (waitForCompletion costResp []).1
      ∧ totalCost 1000000 1000000 = 11.25 :=
  c8_cost_formula costResp [] costResp rfl rfl

/-- Suffix of the character list starting at its last dot, if any. -/
def lastDotSuffix : List Char → Option (List Char)
  | [] => none
  | c :: rest =>
    match lastDotSuffix rest with
    | some s => some s
    | none => if c = '.' then some (c :: rest) else none

/-- Models Node's `path.extname`: the extension of the last path component,
empty when the only dot is the component's leading character. -/
def extname (p : String) : String :=
  match (basenameOf p).data with
  | [] => ""
  | _ :: rest =>
    match lastDotSuffix rest with
    | some s => String.mk s
    | none => ""

/-- Models `String.prototype.toLowerCase` on the ASCII extensions used. -/
def jsToLower (s : String) : String :=
  String.mk (s.data.map Char.toLower)

/-- Models `getMimeType` (src/ai.mjs:389-458): extension switch defaulting
to opaque binary. -/
def getMimeType (filename : String) : String :=
  let ext := jsToLower (extname filename)
  if ext = ".png" then "image/png"
  else if ext = ".jpg" ∨ ext = ".jpeg" then "image/jpeg"
  else if ext = ".gif" then "image/gif"
  else if ext = ".bmp" then "image/bmp"
  else if ext = ".webp" then "image/webp"
  else if ext = ".tiff" ∨ ext = ".tif" then "image/tiff"
  else if ext = ".svg" then "image/svg+xml"
  else if ext = ".json" then "application/json"
  else if ext = ".pdf" then "application/pdf"
  else if ext = ".js" then "text/javascript"
  else if ext = ".css" then "text/css"
  else if ext = ".c" ∨ ext = ".cpp" ∨ ext = ".h" ∨ ext = ".hpp" then "text/x-c"
  else if ext = ".txt" then "text/plain"
  else if ext = ".html" ∨ ext = ".htm" then "text/html"
  else if ext = ".md" then "text/markdown"
  else if ext = ".php" then "text/x-php"
  else if ext = ".py" then "text/x-python"
  else if ext = ".sh" then "application/x-sh"
  else "application/octet-stream"

/-- Models `isImage` (src/ai.mjs:375-379). -/
def isImage (filename : String) : Bool :=
  jsStartsWith (getMimeType filename) "image/"

/-- Models `toDataUrl` (src/ai.mjs:382-386); `b64` stands for the base64
encoder of the runtime applied to the file bytes. -/
def toDataUrl (b64 : String → String) (filename content : String) : String :=
  "data:" ++ getMimeType filename ++ ";base64," ++ b64 content

/-- Models `String.prototype.trim`. -/
def jsTrim (s : String) : String :=
  String.mk (((s.data.dropWhile wsChar).reverse.dropWhile wsChar).reverse)

/-- Environment of `parseInputRows`: the buffered standard input, the file
existence test `fs.stat(row).isFile()`, file contents, and the runtime's
base64 encoder. -/
structure Fs where
  stdinStr : String
  isFile : String → Bool
  readFile : String → String
  b64 : String → String

/-- Models the classification of one raw argument row by `parseInputRows`
(src/ai.mjs:596-679). -/
def parseRow (fs : Fs) (row : String) : List InputRow :=
  if row = "-" then
    if 0 < (jsTrim fs.stdinStr).length then [.inputText fs.stdinStr] else []
  else if jsStartsWith row "http://" || jsStartsWith row "https://" then
    if isImage row then [.inputImage row "high"]
    else if getMimeType row = "application/pdf" then [.inputFileUrl row]
    else [.inputText ("URL: " ++ row)]
  else if fs.isFile row then
    if isImage row then
      [.inputImage (toDataUrl fs.b64 row (fs.readFile row)) "high"]
    else if getMimeType row = "application/pdf" then
      [.inputFileData (basenameOf row) (toDataUrl fs.b64 row (fs.readFile row))]
    else
      [.inputText ("Filename: " ++ row ++ "\n\n" ++ fs.readFile row)]
  else [.inputText row]

/-- Models `parseInputRows` over the whole argument list. -/
def parseInputRows (fs : Fs) (argv : List String) : List InputRow :=
  (argv.map (parseRow fs)).flatten

/-- C9: the attachment resolver classifies each raw input item into exactly
one content part — an existing `.png` path becomes an image part embedding
the base64-encoded file bytes, an existing `.pdf` path a file part with its
filename and embedded data, an existing `.txt` path a text part prefixed
with its filename, and an `https://` URL ending in `.jpg` an image part
referencing the URL itself with nothing embedded. -/
theorem c9_attachment_classification (fs : Fs)
    (hpng : fs.isFile "pic.png" = true)
    (hpdf : fs.isFile "doc.pdf" = true)
    (htxt : fs.isFile "notes.txt" = true) :
    parseInputRows fs ["pic.png"]
        = [.inputImage ("data:image/png;base64," ++ fs.b64 (fs.readFile "pic.png"))
            "high"]
      ∧ parseInputRows fs ["doc.pdf"]
        = [.inputFileData "doc.pdf"
            ("data:application/pdf;base64," ++ fs.b64 (fs.readFile "doc.pdf"))]
      ∧ parseInputRows fs ["notes.txt"]
        = [.inputText ("Filename: notes.txt\n\n" ++ fs.readFile "notes.txt")]
      ∧ parseInputRows fs ["https://example.com/photo.jpg"]
        = [.inputImage "https://example.com/photo.jpg" "high"] := by
  have hsingle : ∀ row, parseInputRows fs [row] = parseRow fs row := by
    intro row
    simp [parseInputRows]
  refine ⟨?_, ?_, ?_, rfl⟩
  · rw [hsingle]
    unfold parseRow
    rw [hpng]
    rfl
  · rw [hsingle]
    unfold parseRow
    rw [hpdf]
    rfl
  · rw [hsingle]
    unfold parseRow
    rw [htxt]
    rfl

/-- Concrete environment for the C9 witness. -/
def sampleFs : Fs :=
  { stdinStr := ""
    isFile := fun s => s == "pic.png" || s == "doc.pdf" || s == "notes.txt"
    readFile := fun _ => "DATA"
    b64 := fun s => s ++ "==" }

/-- Witness for C9 at the concrete environment. -/
theorem c9_attachment_classification_witness :
    parseInputRows sampleFs ["pic.png"]
        = [.inputImage ("data:image/png;base64,"
            ++ sampleFs.b64 (sampleFs.readFile "pic.png")) "high"]
      ∧ parseInputRows sampleFs ["doc.pdf"]
        = [.inputFileData "doc.pdf"
            ("data:application/pdf;base64,"
              ++ sampleFs.b64 (sampleFs.readFile "doc.pdf"))]
      ∧ parseInputRows sampleFs ["notes.txt"]
        = [.inputText ("Filename: notes.txt\n\n" ++ sampleFs.readFile "notes.txt")]
      ∧ parseInputRows sampleFs ["https://example.com/photo.jpg"]
        = [.inputImage "https://example.com/photo.jpg" "high"] :=
  c9_attachment_classification sampleFs rfl rfl rfl

/-- Stable insertion of a record among entries sorted by `created_at`
descending: existing entries with an equal or later timestamp stay in
front. -/
def insertByCreatedAtDesc (r : Resp) : List Resp → List Resp
  | [] => [r]
  | x :: xs =>
    if r.created_at ≤ x.created_at then x :: insertByCreatedAtDesc r xs
    else r :: x :: xs

/-- Models `responses.sort((a, b) => b.created_at - a.created_at)`
(src/ai.mjs:726): a stable sort by creation time, most recent first. -/
def sortByCreatedAtDesc (l : List Resp) : List Resp :=
  l.foldl (fun acc r => insertByCreatedAtDesc r acc) []

/-- Models the `responseById` map (src/ai.mjs:728-732); a later `set` for
the same id overwrites an earlier one. -/
def responseById (rs : List Resp) : String → Option Resp :=
  rs.foldl (fun m r => fun i => if i = r.id then some r else m i) (fun _ => none)

/-- Models the backlink walk of `listHistory` (src/ai.mjs:744-754): follow
`previous_response_id` while the target exists locally, prepending each
record (`thread.unshift`) so the result is oldest first.  The walk never
reads the visited set, so the only deviation from the unbounded JavaScript
loop is the fuel bound, always instantiated with the record count — enough
for every acyclic store. -/
def chainFrom (byId : String → Option Resp) : Nat → Resp → List Resp → List Resp
  | 0, _, acc => acc
  | fuel+1, r, acc =>
    match r.previous_response_id with
    | none => r :: acc
    | some p =>
      match byId p with
      | none => r :: acc
      | some r2 => chainFrom byId fuel r2 (r :: acc)

/-- Models the outer loop of `listHistory` (src/ai.mjs:734-757).  The
source pushes every walked id into the visited set; since the walk is the
only writer, the ids added by one iteration are exactly the ids of its
thread. -/
def threadsGo (byId : String → Option Resp) (fuel : Nat) :
    List String → List Resp → List (List Resp)
  | _, [] => []
  | visited, r :: rest =>
    if r.id ∈ visited then threadsGo byId fuel visited rest
    else
      chainFrom byId fuel r []
        :: threadsGo byId fuel
            ((chainFrom byId fuel r []).map Resp.id ++ visited) rest

/-- Thread reconstruction of `listHistory`: sort the loaded records by
creation time descending, then walk backlinks from each not-yet-visited
record in that order. -/
def buildThreads (responses : List Resp) : List (List Resp) :=
  threadsGo (responseById (sortByCreatedAtDesc responses)) responses.length []
    (sortByCreatedAtDesc responses)

/-- Record A of the C6 scenario: no backlink, oldest. -/
def respA : Resp :=
  { fallbackResp with
      id := "resp_aaaaaaaaaaaa"
      created_at := 100 }

/-- Record B of the C6 scenario: continues A. -/
def respB : Resp :=
  { fallbackResp with
      id := "resp_bbbbbbbbbbbb"
      created_at := 200
      previous_response_id := some "resp_aaaaaaaaaaaa" }

/-- Record C of the C6 scenario: continues B, most recent. -/
def respC : Resp :=
  { fallbackResp with
      id := "resp_cccccccccccc"
      created_at := 300
      previous_response_id := some "resp_bbbbbbbbbbbb" }

/-- Record with a dangling backlink: its predecessor is not persisted. -/
def respD : Resp :=
  { fallbackResp with
      id := "resp_dddddddddddd"
      created_at := 400
      previous_response_id := some "resp_xxxxxxxxxxxx" }

/-- C6: the thread reconstructor yields maximal backlink chains oldest
first — the chained records A, B, C persisted in any of the six possible
orders give exactly the single thread `[A, B, C]`, and a record whose
backlink names an absent identifier starts its thread at itself. -/
theorem c6_thread_reconstruction :
    buildThreads [respA, respB, respC] = [[respA, respB, respC]]
      ∧ buildThreads [respA, respC, respB] = [[respA, respB, respC]]
      ∧ buildThreads [respB, respA, respC] = [[respA, respB, respC]]
      ∧ buildThreads [respB, respC, respA] = [[respA, respB, respC]]
      ∧ buildThreads [respC, respA, respB] = [[respA, respB, respC]]
      ∧ buildThreads [respC, respB, respA] = [[respA, respB, respC]]
      ∧ buildThreads [respD] = [[respD]] :=
  ⟨rfl, rfl, rfl, rfl, rfl, rfl, rfl⟩

/-- Terminal color wrapper `termColor` (src/ai.mjs:334-336). -/
def termColor (text : String) (colorCode : Nat) : String :=
  "\x1b[" ++ toString colorCode ++ "m" ++ text ++ "\x1b[0m"

/-- Green text (src/ai.mjs:342). -/
def green (t : String) : String := termColor t 32

/-- Yellow text (src/ai.mjs:345). -/
def yellow (t : String) : String := termColor t 33

/-- Gray text (src/ai.mjs:360). -/
def gray (t : String) : String := termColor t 90

/-- Last `n` characters of a string (`id.slice(-8)`). -/
def sliceLast (n : Nat) (s : String) : String :=
  String.mk ((s.data.reverse.take n).reverse)

/-- Models `Array.prototype.join` with a separator. -/
def joinSep (sep : String) : List String → String
  | [] => ""
  | [x] => x
  | x :: xs => x ++ sep ++ joinSep sep xs

/-- Input summary of one listed response (src/ai.mjs:766-772); a request
without an `input` field renders as `undefined` through the optional
chain. -/
def inputSummaryOf (request : Request) : String :=
  match request.input with
  | none => "undefined"
  | some msgs =>
    joinSep " || " (msgs.map (fun inp =>
      if inp.type = "message" then
        joinSep " | "
          ((inp.content.filter (fun c => c.type == "input_text")).map
            (fun c => c.textOf))
      else inp.type))

/-- Output summary of one listed response (src/ai.mjs:774-780). -/
def outputSummaryOf (r : Resp) : String :=
  joinSep " || " (r.output.map (fun out =>
    if out.type = "message" then
      joinSep " | "
        ((out.content.filter (fun c => c.type == "output_text")).map
          (fun c => c.text))
    else out.type))

/-- First line of a string (`split('\n')[0]`). -/
def headLine (s : String) : String :=
  String.mk (s.data.takeWhile (fun c => c ≠ '\n'))

/-- Models the rendering of one response row of `listHistory`
(src/ai.mjs:759-790); the creation time is shown as its raw seconds value
in place of the locale formatting.  When `loadRequest` yields `null`, the
very next line evaluates `request.input` on `null`: that uncaught
`TypeError` is the middle error case, and a corrupt request file
propagates the `JSON.parse` throw. -/
def renderResponse (st : Store) (parseReq : String → Option Request)
    (index : Nat) (r : Resp) : Except String String :=
  match loadRequest st parseReq r.id with
  | .error e => .error e
  | .ok none => .error "TypeError: Cannot read properties of null"
  | .ok (some request) =>
    let indent := if index > 0 then "  " else ""
    .ok (indent ++ yellow (sliceLast 8 r.id) ++ " "
        ++ gray (toString r.created_at) ++ "\n"
      ++ indent ++ "  " ++ green (inputSummaryOf request) ++ "\n"
      ++ indent ++ "  > " ++ headLine (outputSummaryOf r) ++ "\n")

/-- Render the rows of one thread, counting the index for indentation. -/
def renderThreadGo (st : Store) (parseReq : String → Option Request) :
    Nat → List Resp → Except String String
  | _, [] => .ok ""
  | idx, r :: rest =>
    match renderResponse st parseReq idx r with
    | .error e => .error e
    | .ok s =>
      match renderThreadGo st parseReq (idx + 1) rest with
      | .error e => .error e
      | .ok s2 => .ok (s ++ s2)

/-- Render all threads in order. -/
def renderThreads (st : Store) (parseReq : String → Option Request) :
    List (List Resp) → Except String String
  | [] => .ok ""
  | t :: ts =>
    match renderThreadGo st parseReq 0 t with
    | .error e => .error e
    | .ok s =>
      match renderThreads st parseReq ts with
      | .error e => .error e
      | .ok s2 => .ok (s ++ s2)

/-- Load every listed response id in order, skipping records that load as
`null` (src/ai.mjs:716-724); a throwing load propagates. -/
def loadAllResponses (st : Store) (parse : String → Option Resp) :
    List String → Except String (List Resp)
  | [] => .ok []
  | i :: rest =>
    match loadResponse st parse i with
    | .error e => .error e
    | .ok none => loadAllResponses st parse rest
    | .ok (some r) =>
      match loadAllResponses st parse rest with
      | .error e => .error e
      | .ok rs => .ok (r :: rs)

/-- Models `listHistory` (src/ai.mjs:708-795). -/
def listHistory (st : Store) (parse : String → Option Resp)
    (parseReq : String → Option Request) : Except String String :=
  if (listAllResponseIds st).isEmpty then .ok "No history found.\n"
  else
    match loadAllResponses st parse (listAllResponseIds st) with
    | .error e => .error e
    | .ok responses => renderThreads st parseReq (buildThreads responses)

/-- The backlink walk keeps everything already accumulated. -/
theorem mem_chainFrom_acc (byId : String → Option Resp) (x : Resp) :
    ∀ (fuel : Nat) (r : Resp) (acc : List Resp),
      x ∈ acc → x ∈ chainFrom byId fuel r acc := by
  intro fuel
  induction fuel with
  | zero =>
    intro r acc h
    simpa [chainFrom] using h
  | succ n ih =>
    intro r acc h
    unfold chainFrom
    split
    · exact List.mem_cons_of_mem _ h
    · split
      · exact List.mem_cons_of_mem _ h
      · exact ih _ _ (List.mem_cons_of_mem _ h)

/-- With any fuel at all, the walk's starting record lands in its thread. -/
theorem self_mem_chainFrom (byId : String → Option Resp) (fuel : Nat)
    (hf : 1 ≤ fuel) (r : Resp) (acc : List Resp) :
    r ∈ chainFrom byId fuel r acc := by
  match fuel, hf with
  | n+1, _ =>
    unfold chainFrom
    split
    · exact List.mem_cons_self r acc
    · split
      · exact List.mem_cons_self r acc
      · exact mem_chainFrom_acc byId r n _ _ (List.mem_cons_self r acc)

/-- Step equation of the outer loop on a non-empty list. -/
theorem threadsGo_cons (byId : String → Option Resp) (fuel : Nat)
    (visited : List String) (r : Resp) (rest : List Resp) :
    threadsGo byId fuel visited (r :: rest)
      = if r.id ∈ visited then threadsGo byId fuel visited rest
        else
          chainFrom byId fuel r []
            :: threadsGo byId fuel
                ((chainFrom byId fuel r []).map Resp.id ++ visited) rest := rfl

/-- Every record of the outer list that is not yet visited ends up, by id,
in one of the produced threads. -/
theorem threadsGo_covers (byId : String → Option Resp) (fuel : Nat)
    (hf : 1 ≤ fuel) :
    ∀ (l : List Resp) (visited : List String) (r0 : Resp),
      r0 ∈ l → r0.id ∉ visited →
      ∃ t, t ∈ threadsGo byId fuel visited l ∧ r0.id ∈ t.map Resp.id := by
  intro l
  induction l with
  | nil =>
    intro visited r0 h
    exact absurd h (List.not_mem_nil r0)
  | cons r rest ih =>
    intro visited r0 hmem hnv
    by_cases hv : r.id ∈ visited
    · have hstep : threadsGo byId fuel visited (r :: rest)
          = threadsGo byId fuel visited rest := by
        rw [threadsGo_cons, if_pos hv]
      rcases List.mem_cons.1 hmem with heq | hmem'
      · rw [heq] at hnv
        exact absurd hv hnv
      · rcases ih visited r0 hmem' hnv with ⟨t, ht, hid⟩
        exact ⟨t, by rw [hstep]; exact ht, hid⟩
    · have hstep : threadsGo byId fuel visited (r :: rest)
          = chainFrom byId fuel r []
            :: threadsGo byId fuel
                ((chainFrom byId fuel r []).map Resp.id ++ visited) rest := by
        rw [threadsGo_cons, if_neg hv]
      rcases List.mem_cons.1 hmem with heq | hmem'
      · refine ⟨chainFrom byId fuel r [], ?_, ?_⟩
        · rw [hstep]
          exact List.mem_cons_self _ _
        · rw [heq]
          exact List.mem_map_of_mem Resp.id (self_mem_chainFrom byId fuel hf r [])
      · by_cases hin : r0.id ∈ (chainFrom byId fuel r []).map Resp.id
        · refine ⟨chainFrom byId fuel r [], ?_, hin⟩
          rw [hstep]
          exact List.mem_cons_self _ _
        · have hnv2 : r0.id ∉ (chainFrom byId fuel r []).map Resp.id ++ visited := by
            intro hcon
            rcases List.mem_append.1 hcon with h1 | h1
            · exact hin h1
            · exact hnv h1
          rcases ih _ r0 hmem' hnv2 with ⟨t, ht, hid⟩
          refine ⟨t, ?_, hid⟩
          rw [hstep]
          exact List.mem_cons_of_mem _ ht

/-- Membership is preserved by the stable insertion. -/
theorem mem_insertByCreatedAtDesc (r x : Resp) :
    ∀ l, x ∈ insertByCreatedAtDesc r l ↔ x = r ∨ x ∈ l := by
  intro l
  induction l with
  | nil => simp [insertByCreatedAtDesc]
  | cons y ys ih =>
    unfold insertByCreatedAtDesc
    by_cases h : r.created_at ≤ y.created_at
    · rw [if_pos h]
      simp only [List.mem_cons, ih]
      tauto
    · rw [if_neg h]
      simp only [List.mem_cons]

/-- Membership is preserved by the stable sort. -/
theorem mem_sortByCreatedAtDesc (x : Resp) (l : List Resp) :
    x ∈ sortByCreatedAtDesc l ↔ x ∈ l := by
  suffices h : ∀ acc, x ∈ l.foldl (fun a r => insertByCreatedAtDesc r a) acc
      ↔ x ∈ acc ∨ x ∈ l by
    simpa [sortByCreatedAtDesc] using h []
  induction l with
  | nil =>
    intro acc
    simp
  | cons y ys ih =>
    intro acc
    simp only [List.foldl_cons]
    rw [ih, mem_insertByCreatedAtDesc]
    simp only [List.mem_cons]
    tauto

/-- A thread containing a record whose request artifact neither exists nor
parses makes the per-thread rendering fail. -/
theorem renderThreadGo_error (st : Store) (parseReq : String → Option Request)
    (i : String) (hbad : ∀ q, loadRequest st parseReq i ≠ .ok (some q)) :
    ∀ (thread : List Resp) (idx : Nat),
      (∃ r', r' ∈ thread ∧ r'.id = i) →
      ∃ e, renderThreadGo st parseReq idx thread = .error e := by
  intro thread
  induction thread with
  | nil =>
    intro idx h
    rcases h with ⟨r', hr', _⟩
    exact absurd hr' (List.not_mem_nil r')
  | cons r rest ih =>
    intro idx h
    by_cases hr : r.id = i
    · have hre : ∃ e, renderResponse st parseReq idx r = .error e := by
        unfold renderResponse
        rw [hr]
        cases hl : loadRequest st parseReq i with
        | error e => exact ⟨e, rfl⟩
        | ok o =>
          cases o with
          | none => exact ⟨_, rfl⟩
          | some q => exact absurd hl (hbad q)
      rcases hre with ⟨e, he⟩
      refine ⟨e, ?_⟩
      unfold renderThreadGo
      rw [he]
    · rcases h with ⟨r', hr', hid⟩
      rcases List.mem_cons.1 hr' with heq | hmem'
      · rw [heq] at hid
        exact absurd hid hr
      · cases hrr : renderResponse st parseReq idx r with
        | error e =>
          refine ⟨e, ?_⟩
          unfold renderThreadGo
          rw [hrr]
        | ok s =>
          rcases ih (idx + 1) ⟨r', hmem', hid⟩ with ⟨e, he⟩
          refine ⟨e, ?_⟩
          unfold renderThreadGo
          rw [hrr, he]

/-- A failing thread makes the whole listing render fail. -/
theorem renderThreads_error (st : Store) (parseReq : String → Option Request)
    (t : List Resp)
    (herr : ∃ e, renderThreadGo st parseReq 0 t = .error e) :
    ∀ ts, t ∈ ts → ∃ e, renderThreads st parseReq ts = .error e := by
  intro ts
  induction ts with
  | nil =>
    intro h
    exact absurd h (List.not_mem_nil t)
  | cons t1 rest ih =>
    intro hmem
    rcases List.mem_cons.1 hmem with heq | hmem'
    · subst heq
      rcases herr with ⟨e, he⟩
      refine ⟨e, ?_⟩
      unfold renderThreads
      rw [he]
    · cases hr : renderThreadGo st parseReq 0 t1 with
      | error e =>
        refine ⟨e, ?_⟩
        unfold renderThreads
        rw [hr]
      | ok s =>
        rcases ih hmem' with ⟨e, he⟩
        refine ⟨e, ?_⟩
        unfold renderThreads
        rw [hr, he]

/-- C10: the history listing assumes every listed response has a matching
request record — whenever some loaded response's request artifact is
absent or unparseable, `listHistory` dereferences a null request (or
re-throws the parse error) and fails instead of listing that response. -/
theorem c10_listing_requires_request (st : Store)
    (parse : String → Option Resp) (parseReq : String → Option Request)
    (responses : List Resp) (r0 : Resp)
    (hload : loadAllResponses st parse (listAllResponseIds st) = .ok responses)
    (hmem : r0 ∈ responses)
    (hbad : ∀ q, loadRequest st parseReq r0.id ≠ .ok (some q)) :
    ∃ e, listHistory st parse parseReq = .error e := by
  have hne : (listAllResponseIds st).isEmpty = false := by
    cases hids : listAllResponseIds st with
    | nil =>
      rw [hids] at hload
      simp only [loadAllResponses] at hload
      have : responses = [] := by
        cases hload
        rfl
      rw [this] at hmem
      exact absurd hmem (List.not_mem_nil r0)
    | cons a as => simp
  have hfuel : 1 ≤ responses.length := List.length_pos_of_mem hmem
  have hsorted : r0 ∈ sortByCreatedAtDesc responses :=
    (mem_sortByCreatedAtDesc r0 responses).2 hmem
  rcases threadsGo_covers (responseById (sortByCreatedAtDesc responses))
      responses.length hfuel (sortByCreatedAtDesc responses) [] r0 hsorted
      (List.not_mem_nil r0.id) with ⟨t, ht, hid⟩
  rcases List.mem_map.1 hid with ⟨r', hr', hid'⟩
  have herr := renderThreadGo_error st parseReq r0.id hbad t 0 ⟨r', hr', hid'⟩
  have hthreads : t ∈ buildThreads responses := by
    unfold buildThreads
    exact ht
  rcases renderThreads_error st parseReq t herr (buildThreads responses)
      hthreads with ⟨e, he⟩
  refine ⟨e, ?_⟩
  unfold listHistory
  rw [hne]
  simp only [Bool.false_eq_true, if_false]
  rw [hload]
  exact he

/-- Response persisted without any request artifact, as the C10 witness. -/
def respW : Resp :=
  { fallbackResp with id := "resp_wwwwwwwwwwww" }

/-- Store holding only the response file of `respW` — no `req_` file. -/
def witStore : Store :=
  ⟨[("resp_wwwwwwwwwwww.json", "RESP")]⟩

/-- Parse function decoding the concrete stored content to `respW`. -/
def witParse (s : String) : Option Resp :=
  if s = "RESP" then some respW else none

/-- Witness for C10: with one persisted response and no request artifact,
the listing fails. -/
theorem c10_listing_requires_request_witness :
    ∃ e, listHistory witStore witParse (fun _ => none) = .error e :=
  c10_listing_requires_request witStore witParse (fun _ => none) [respW] respW
    rfl (List.mem_singleton.2 rfl)
    (by
      intro q h
      rw [show loadRequest witStore (fun _ => none) respW.id = .ok none from rfl]
        at h
      exact Option.noConfusion (Except.ok.inj h))

end ShellAi
